import Mathlib

/-!
Verification development for the MCP-supermemory repository.

Shallow embedding of the tool handlers of the repository:
the Obsidian note tools and the Neo4j graph tools, the memory
orchestrator built on top of them, and the MCP dispatch layer.
Pure data is modelled directly; the filesystem and the graph store are
modelled as explicit state values threaded through the handlers;
JavaScript exceptions are modelled with Except.
-/

namespace MCPSM

/-! ## Front-matter values

Front matter in obsidian-tools.js is a flat key to scalar-or-array map.
The simple YAML parser there produces strings, booleans and arrays of
strings, which FMValue captures. -/

inductive FMValue where
  | str (s : String)
  | bool (b : Bool)
  | arr (items : List String)
deriving Repr, DecidableEq

abbrev FM := List (String × FMValue)

/-- Insert-or-replace with JavaScript object semantics: assigning to an
existing key keeps its position, a new key is appended. -/
def upsertFM (k : String) (v : FMValue) : FM → FM
  | [] => [(k, v)]
  | (k', v') :: rest =>
      if k' = k then (k, v) :: rest else (k', v') :: upsertFM k v rest

/-- Whitespace trim on both ends of a character list, the model of
JavaScript String.prototype.trim for the ASCII inputs in play. -/
def trimChars (l : List Char) : List Char :=
  ((l.dropWhile Char.isWhitespace).reverse.dropWhile Char.isWhitespace).reverse

/-- Index of the first occurrence of a character, the model of
JavaScript String.prototype.indexOf restricted to a found/not-found
option instead of -1. -/
def idxOf (c : Char) : List Char → Option Nat
  | [] => none
  | x :: xs => if x = c then some 0 else (idxOf c xs).map (· + 1)

/-- Strip one leading double quote if present and then one trailing
double quote if present, the model of the global regex replace
removing an anchored leading or trailing quote in parseFrontmatter. -/
def stripQuotes (l : List Char) : List Char :=
  let l1 := if l.head? = some '"' then l.drop 1 else l
  if l1.getLast? = some '"' then l1.dropLast else l1

/-- Classify one trimmed front-matter value exactly as the
parseFrontmatter branches of obsidian-tools.js do: bracketed lists
become arrays of trimmed unquoted items, the bare literals true and
false become booleans, surrounding double quotes are stripped, anything
else is kept verbatim as a string. -/
def classifyValue (raw : List Char) : FMValue :=
  if raw.head? = some '[' ∧ raw.getLast? = some ']' then
    FMValue.arr (((raw.drop 1).dropLast.splitOn ',').map
      (fun p => String.mk (stripQuotes (trimChars p))))
  else if raw = "true".data then FMValue.bool true
  else if raw = "false".data then FMValue.bool false
  else if raw.head? = some '"' ∧ raw.getLast? = some '"' then
    FMValue.str (String.mk ((raw.drop 1).dropLast))
  else FMValue.str (String.mk raw)

/-- Parse one front-matter line: the key runs up to the first colon,
which must not sit at position zero, and the remainder is the value;
lines without such a colon are skipped. -/
def parseFMLine (line : List Char) : Option (String × FMValue) :=
  match idxOf ':' line with
  | none => none
  | some 0 => none
  | some i =>
      some (String.mk (trimChars (line.take i)),
            classifyValue (trimChars (line.drop (i + 1))))

/-- Parse a whole front-matter block, one line at a time, assigning
keys into a JavaScript-object-like map. -/
def parseFMBlock (block : List Char) : FM :=
  (block.splitOn '\n').foldl
    (fun acc line =>
      match parseFMLine line with
      | some (k, v) => upsertFM k v acc
      | none => acc) []

/-- Split a list at the first occurrence of a separator pattern,
returning the parts before and after it. This models the non-greedy
regex group in parseFrontmatter, which ends the front-matter block at
the first closing delimiter. -/
def findSplit (sep : List Char) : List Char → Option (List Char × List Char)
  | [] => if sep.isEmpty then some ([], []) else none
  | c :: rest =>
      if sep.isPrefixOf (c :: rest) then some ([], (c :: rest).drop sep.length)
      else
        match findSplit sep rest with
        | some (a, b) => some (c :: a, b)
        | none => none

/-- Core of parseFrontmatter from obsidian-tools.js over character
lists: the content must open with a front-matter fence, the block runs
to the first closing fence, its lines are parsed into a map, and the
body after the fence is trimmed. Content without the fences comes back
unparsed. -/
def parseFrontmatterCore (cs : List Char) :
    Option FM × List Char :=
  if ("---\n".data).isPrefixOf cs then
    match findSplit ("\n---\n".data) (cs.drop 4) with
    | some (block, rest) => (some (parseFMBlock block), trimChars rest)
    | none => (none, cs)
  else (none, cs)

/-- String-level parseFrontmatter, the direct model of the source
helper of the same name. -/
def parseFrontmatter (content : String) : Option FM × String :=
  let r := parseFrontmatterCore content.data
  (r.1, String.mk r.2)

/-- Serialization of one front-matter entry, following buildFrontmatter:
arrays as bracketed comma lists of quoted items, booleans bare, other
scalars double quoted. -/
def fmLine (kv : String × FMValue) : String :=
  match kv.2 with
  | FMValue.arr xs =>
      kv.1 ++ ": [" ++
        String.intercalate ", " (xs.map (fun v => "\"" ++ v ++ "\"")) ++ "]"
  | FMValue.bool b => kv.1 ++ ": " ++ (if b then "true" else "false")
  | FMValue.str s => kv.1 ++ ": \"" ++ s ++ "\""

/-- Model of buildFrontmatter from obsidian-tools.js: an empty map
serializes to the empty string, otherwise fences around one line per
entry followed by a blank line. -/
def buildFrontmatter (fm : FM) : String :=
  if fm.isEmpty then ""
  else String.intercalate "\n" (["---"] ++ fm.map fmLine ++ ["---", ""])

/-! ## Note store state and path handling -/

/-- The vault as a flat map from vault-relative file path to file
content, the state the read/write/append/delete note handlers act on. -/
abbrev Files := List (String × String)

def lookupFile (files : Files) (p : String) : Option String :=
  (files.find? (fun kv => kv.1 = p)).map (·.2)

def removeFile (files : Files) (p : String) : Files :=
  files.filter (fun kv => kv.1 ≠ p)

def setFile (files : Files) (p content : String) : Files :=
  (p, content) :: removeFile files p

/-- Suffix test on strings through their character lists. -/
def strEndsWith (s suffix : String) : Bool :=
  suffix.data.isSuffixOf s.data

/-- Model of normalizeFilename: append the markdown extension when it
is missing. -/
def normalizeFilename (filename : String) : String :=
  if strEndsWith filename ".md" then filename else filename ++ ".md"

/-- Model of getFilePath: normalize the extension and strip one leading
path separator; the vault root prefix is left implicit since every
handler resolves against the same root. -/
def getFilePath (filename : String) : String :=
  let n := normalizeFilename filename
  if "/".data.isPrefixOf n.data then String.mk (n.data.drop 1) else n

structure WriteNoteResult where
  success : Bool
  filename : String
deriving Repr, DecidableEq

/-- Model of the write_note handler: serialize the front matter above
the content when present and overwrite the file unconditionally. -/
def write_note (files : Files) (filename content : String)
    (frontmatter : Option FM) : Files × WriteNoteResult :=
  let fp := getFilePath filename
  let fullContent :=
    match frontmatter with
    | some fm => buildFrontmatter fm ++ "\n" ++ content
    | none => content
  (setFile files fp fullContent, ⟨true, filename⟩)

structure DeleteNoteResult where
  success : Bool
  filename : String
  deleted : Bool
deriving Repr, DecidableEq

/-- Model of the delete_note handler: unlink the file when it exists;
when unlink reports a missing file the handler swallows the error and
reports success with deleted set to false. -/
def delete_note (files : Files) (filename : String) :
    Files × DeleteNoteResult :=
  let fp := getFilePath filename
  match lookupFile files fp with
  | some _ => (removeFile files fp, ⟨true, filename, true⟩)
  | none => (files, ⟨true, filename, false⟩)

structure ReadNoteResult where
  success : Bool
  frontmatter : Option FM
  content : String
deriving Repr, DecidableEq

/-- Model of the read_note handler: a missing file raises the note-not-
found error; otherwise the content is returned, run through the
front-matter parser when requested. -/
def read_note (files : Files) (filename : String)
    (parse : Bool) : Except String ReadNoteResult :=
  match lookupFile files (getFilePath filename) with
  | none => Except.error ("Note not found: " ++ filename)
  | some content =>
      if parse then
        let r := parseFrontmatter content
        Except.ok ⟨true, r.1, r.2⟩
      else Except.ok ⟨true, none, content⟩

/-! ## Graph store state

Model of the Neo4j property graph the neo4j-tools.js handlers act on.
Property values cover what the handlers read and write: strings,
numbers (modelled as rationals, which carry the importance scores in
the unit interval exactly), and null. Internal element ids are natural
numbers drawn from a per-state counter. -/

inductive PropVal where
  | str (s : String)
  | num (q : ℚ)
  | null
deriving Repr, DecidableEq

abbrev PropMap := List (String × PropVal)

/-- Insert-or-replace on a property map with JavaScript object-spread
semantics: an existing key keeps its position, a new key is appended. -/
def upsertProp (k : String) (v : PropVal) : PropMap → PropMap
  | [] => [(k, v)]
  | (k', v') :: rest =>
      if k' = k then (k, v) :: rest else (k', v') :: upsertProp k v rest

/-- Merge a list of updates into a property map, the model of an object
spread or a Cypher SET plus-equals. -/
def setProps (m updates : PropMap) : PropMap :=
  updates.foldl (fun acc kv => upsertProp kv.1 kv.2 acc) m

/-- Read a property; a missing key is null, as in Cypher. -/
def lookupProp (m : PropMap) (k : String) : PropVal :=
  ((m.find? (fun kv => kv.1 = k)).map (·.2)).getD PropVal.null

structure GNode where
  nid : Nat
  label : String
  name : String
  props : PropMap
deriving Repr, DecidableEq

structure GRel where
  rid : Nat
  typ : String
  fromId : Nat
  toId : Nat
  props : PropMap
deriving Repr, DecidableEq

structure GraphState where
  nextId : Nat
  nodes : List GNode
  rels : List GRel
deriving Repr, DecidableEq

/-- Element ids handed out so far are below the counter and every
relationship endpoint refers to an already assigned id. Every state
reachable from the empty graph through the adapter operations
satisfies this. -/
def GraphState.WF (g : GraphState) : Prop :=
  (∀ n ∈ g.nodes, n.nid < g.nextId) ∧
  (∀ r ∈ g.rels, r.fromId < g.nextId ∧ r.toId < g.nextId)

/-! ## Neo4j adapter operations

Each operation takes a `down` flag modelling the graph service being
unavailable, in which case acquiring the session throws; this is the
failure the orchestrator catch blocks are there for. -/

structure CreateEntityResult where
  success : Bool
  id : Nat
  label : String
  name : String
deriving Repr, DecidableEq

/-- The rejection the graph server answers the create_entity statement
with: its CREATE clause splices the JavaScript object spread into the
Cypher map literal, which is not Cypher syntax. -/
def createEntitySyntaxError : String :=
  "Neo.ClientError.Statement.SyntaxError: Invalid input in CREATE map literal"

/-- Model of the create_entity handler. The source runs CREATE with a
map literal containing the JavaScript spread of the props parameter,
a construct Cypher does not have, so a reachable graph server rejects
the statement with a syntax error on every call and the handler always
throws; an unreachable server throws at session acquisition instead.
The intended successful insert (label, name, merged properties plus a
createdAt stamp, no uniqueness check) is never reached. -/
def create_entity (down : Bool) (_g : GraphState) (_label _name : String)
    (_properties : PropMap) (_now : String) :
    Except String (GraphState × CreateEntityResult) :=
  if down then Except.error "Neo4j session unavailable"
  else Except.error createEntitySyntaxError

/-- Model of the update_entity handler: match the node by element id and
merge the properties plus an updatedAt stamp; an empty match raises the
entity-not-found error. -/
def update_entity (down : Bool) (g : GraphState) (id : Nat)
    (properties : PropMap) (now : String) :
    Except String (GraphState × Nat) :=
  if down then Except.error "Neo4j session unavailable" else
  if (g.nodes.find? (fun n => n.nid = id)).isSome then
    Except.ok
      (⟨g.nextId,
        g.nodes.map (fun n =>
          if n.nid = id then
            { n with props :=
                setProps n.props (setProps properties [("updatedAt", PropVal.str now)]) }
          else n),
        g.rels⟩, id)
  else Except.error ("Entity not found: " ++ toString id)

structure DeleteEntityResult where
  success : Bool
  deleted : Bool
deriving Repr, DecidableEq

def incidentRels (g : GraphState) (id : Nat) : List GRel :=
  g.rels.filter (fun r => r.fromId = id ∨ r.toId = id)

/-- Model of the delete_entity handler: DELETE (optionally DETACH
DELETE) by element id. A missing node deletes nothing and reports
success with deleted computed from the nodes-deleted counter; deleting
a node that still has relationships without detach violates a store
constraint and surfaces as a generic failure. -/
def delete_entity (down : Bool) (g : GraphState) (id : Nat) (detach : Bool) :
    Except String (GraphState × DeleteEntityResult) :=
  if down then Except.error "Neo4j session unavailable" else
  match g.nodes.find? (fun n => n.nid = id) with
  | none => Except.ok (g, ⟨true, (0 : Nat) != 0⟩)
  | some _ =>
      if detach then
        Except.ok
          (⟨g.nextId, g.nodes.filter (fun n => n.nid ≠ id),
            g.rels.filter (fun r => ¬ (r.fromId = id ∨ r.toId = id))⟩,
           ⟨true, (1 : Nat) != 0⟩)
      else if (incidentRels g id).isEmpty then
        Except.ok
          (⟨g.nextId, g.nodes.filter (fun n => n.nid ≠ id), g.rels⟩,
           ⟨true, (1 : Nat) != 0⟩)
      else Except.error "Cannot delete node, because it still has relationships"

/-- ASCII uppercase of one character, the model of what JavaScript
toUpperCase does on the relationship-type strings in play. -/
def upChar (c : Char) : Char :=
  if 'a' ≤ c ∧ c ≤ 'z' then Char.ofNat (c.toNat - 32) else c

/-- Model of String.prototype.toUpperCase restricted to ASCII input. -/
def toUpperStr (s : String) : String := String.mk (s.data.map upChar)

/-- Nodes matched by a label plus name pattern, the match set of one
MATCH clause in create_relationship. -/
def matchNodes (g : GraphState) (label name : String) : List GNode :=
  g.nodes.filter (fun n => n.label = label ∧ n.name = name)

structure CreateRelResult where
  success : Bool
  id : Nat
  from_name : String
  to_name : String
  typ : String
deriving Repr, DecidableEq

/-- Model of the create_relationship handler: two MATCH clauses produce
the cartesian product of the endpoint match sets, CREATE runs once per
row with the uppercased relationship type, and an empty row set raises
the endpoints-not-found error without creating anything. The result
record echoes the raw input type, as the source handler does. -/
def create_relationship (down : Bool) (g : GraphState)
    (from_label from_name to_label to_name relationship_type : String)
    (properties : PropMap) (now : String) :
    Except String (GraphState × CreateRelResult) :=
  if down then Except.error "Neo4j session unavailable" else
  let pairs := (matchNodes g from_label from_name).flatMap
    (fun f => (matchNodes g to_label to_name).map (fun t => (f, t)))
  match pairs with
  | [] => Except.error "One or both entities not found"
  | _ :: _ =>
      let newRels := pairs.enum.map (fun p =>
        GRel.mk (g.nextId + p.1) (toUpperStr relationship_type) p.2.1.nid p.2.2.nid
          (setProps properties [("createdAt", PropVal.str now)]))
      Except.ok (⟨g.nextId + pairs.length, g.nodes, g.rels ++ newRels⟩,
        ⟨true, g.nextId, from_name, to_name, relationship_type⟩)

/-! ## Note search

search_notes in obsidian-tools.js builds a regex from the
regex-escaped literal query (so the pattern is the literal text, with
the i flag unless case_sensitive) and walks the vault directory tree
recursively. The vault tree is encoded as a single inductive where a
constructor holds one directory entry and the rest of its listing, in
readdir order. -/

/-- ASCII lowercase of one character, the model of the regex
case-insensitive flag for the inputs in play. -/
def lowChar (c : Char) : Char :=
  if 'A' ≤ c ∧ c ≤ 'Z' then Char.ofNat (c.toNat + 32) else c

def lowerChars (l : List Char) : List Char := l.map lowChar

/-- Index of the first occurrence of a literal pattern, the model of
one regex search over a string. -/
def firstOccur (needle : List Char) : List Char → Option Nat
  | [] => if needle.isEmpty then some 0 else none
  | c :: t =>
      if needle.isPrefixOf (c :: t) then some 0
      else (firstOccur needle t).map (· + 1)

/-- Fueled scan counting non-overlapping occurrences of a nonempty
literal pattern left to right, the way a global regex match does. One
fuel unit per character position makes the recursion structural; the
wrapper passes the length of the haystack, which bounds the number of
positions visited. -/
def countOccurFuel (needle : List Char) : Nat → List Char → Nat
  | 0, _ => 0
  | _ + 1, [] => 0
  | fuel + 1, c :: t =>
      if needle.isPrefixOf (c :: t) then
        1 + countOccurFuel needle fuel (t.drop (needle.length - 1))
      else countOccurFuel needle fuel t

/-- Number of matches a global regex over the literal pattern finds in
the haystack; an empty pattern matches at every position including the
end, as the JavaScript regex does. -/
def countOccur (needle hay : List Char) : Nat :=
  if needle.isEmpty then hay.length + 1 else countOccurFuel needle hay.length hay

/-- Cypher CONTAINS over stored strings: case-sensitive substring. -/
def strContains (hay needle : String) : Bool :=
  (firstOccur needle.data hay.data).isSome

/-- One call of test on a global regex: the scan starts at the regex
lastIndex; a hit advances lastIndex past the match, a miss resets it to
zero. The snippet filter in search_notes reuses one global regex across
lines, so this state threads across successive lines. -/
def regexTestStep (needle line : List Char) (lastIndex : Nat) : Bool × Nat :=
  match (firstOccur needle (line.drop lastIndex)).map (· + lastIndex) with
  | some i => (true, i + needle.length)
  | none => (false, 0)

/-- Filter the enumerated lines with the stateful global-regex test,
the model of the filter building matchingLines in search_notes. -/
def filterLinesStateful (needle : List Char) (case_sensitive : Bool) :
    List (Nat × List Char) → Nat → List (Nat × List Char)
  | [], _ => []
  | (idx, line) :: rest, lastIndex =>
      let r := regexTestStep needle
        (if case_sensitive then line else lowerChars line) lastIndex
      if r.1 then (idx, line) :: filterLinesStateful needle case_sensitive rest r.2
      else filterLinesStateful needle case_sensitive rest r.2

structure Snippet where
  lineNumber : Nat
  text : String
deriving Repr, DecidableEq

/-- Snippets for one matching note: the first five lines the stateful
regex test accepts, each trimmed and truncated to 200 characters, with
one-based line numbers. -/
def noteSnippets (query : String) (case_sensitive : Bool)
    (content : String) : List Snippet :=
  let needle := if case_sensitive then query.data else lowerChars query.data
  ((filterLinesStateful needle case_sensitive
      (content.data.splitOn '\n').enum 0).take 5).map
    (fun p => ⟨p.1 + 1, String.mk ((trimChars p.2).take 200)⟩)

structure SearchHit where
  filename : String
  path : String
  matchCount : Nat
  snippets : Option (List Snippet)
deriving Repr, DecidableEq

/-- One directory listing of the vault: either exhausted, or a file
followed by the rest of the listing, or a subdirectory with its own
listing followed by the rest, in readdir order. -/
inductive Vault where
  | nil
  | file (name content : String) (rest : Vault)
  | dir (name : String) (entries : Vault) (rest : Vault)
deriving Repr, DecidableEq

/-- Vault-relative path of an entry under a directory prefix. -/
def childPath (pfx name : String) : String :=
  if pfx = "" then name else pfx ++ "/" ++ name

/-- Model of searchInDir from search_notes: walk the listing in order;
a subdirectory contributes its whole recursive result at once, a
matching markdown file contributes one hit, and after every entry the
loop breaks once the accumulated results reach the limit. The break is
per directory level, so a subdirectory can push the total past the
limit before the check runs. -/
def searchWalk (query : String) (case_sensitive include_content : Bool)
    (limit : Nat) : Vault → String → List SearchHit → List SearchHit
  | Vault.nil, _, acc => acc
  | Vault.dir dname sub rest, pfx, acc =>
      let acc' := acc ++ searchWalk query case_sensitive include_content limit
        sub (childPath pfx dname) []
      if limit ≤ acc'.length then acc'
      else searchWalk query case_sensitive include_content limit rest pfx acc'
  | Vault.file fname content rest, pfx, acc =>
      let needle := if case_sensitive then query.data else lowerChars query.data
      let hay := if case_sensitive then content.data else lowerChars content.data
      let acc' :=
        if strEndsWith fname ".md" ∧ 0 < countOccur needle hay then
          acc ++ [⟨fname, childPath pfx fname, countOccur needle hay,
            if include_content then some (noteSnippets query case_sensitive content)
            else none⟩]
        else acc
      if limit ≤ acc'.length then acc'
      else searchWalk query case_sensitive include_content limit rest pfx acc'

structure SearchNotesResult where
  success : Bool
  query : String
  results : List SearchHit
  count : Nat
deriving Repr, DecidableEq

/-- Model of the search_notes handler: walk the whole vault, then
return the results sliced to the limit while count reports the length
of the unsliced accumulation. -/
def search_notes (vault : Vault) (query : String)
    (case_sensitive include_content : Bool) (limit : Nat) : SearchNotesResult :=
  let all := searchWalk query case_sensitive include_content limit vault "" []
  ⟨true, query, all.take limit, all.length⟩

/-! ## Memory orchestrator

memory-tools.js combines the graph adapter and the note adapter. Its
state bundles the two backends plus one failure-injection flag per
backend, modelling the service being unreachable, which in the source
surfaces as a thrown error that the orchestrator catch blocks swallow.
The note store appears twice: as the flat path-to-content map the
write-side handlers act on and as the listing tree the search walks;
no claim relates a write to a subsequent tree search, so the two views
stay independent. -/

structure OrchState where
  graphFail : Bool
  noteFail : Bool
  graph : GraphState
  files : Files
  tree : Vault
deriving Repr, DecidableEq

/-- The importance property of a graph node, when it is a number. -/
def impKey (n : GNode) : Option ℚ :=
  match lookupProp n.props "importance" with
  | PropVal.num q => some q
  | _ => none

/-- Descending comparison on importance keys with null largest, the
ORDER BY importance DESC of the recall query. -/
def impGE (a b : Option ℚ) : Bool :=
  match a, b with
  | none, _ => true
  | some _, none => false
  | some x, some y => decide (y ≤ x)

def impRel (a b : GNode) : Prop := impGE (impKey a) (impKey b) = true

instance : DecidableRel impRel := fun a b =>
  inferInstanceAs (Decidable (impGE (impKey a) (impKey b) = true))

/-- The row set of the recall Cypher match: Memory nodes whose content
contains the query, optionally restricted to one type. -/
def memoryMatches (g : GraphState) (query : String)
    (type? : Option String) : List GNode :=
  g.nodes.filter (fun n =>
    (n.label == "Memory") &&
    (match lookupProp n.props "content" with
     | PropVal.str c => strContains c query
     | _ => false) &&
    (match type? with
     | some t =>
        (match lookupProp n.props "type" with
         | PropVal.str ty => ty == t
         | _ => false)
     | none => true))

/-- Semantics of the Cypher query recall_memory sends through
query_graph: filter Memory nodes on content and type, order by
importance descending, and keep the first limit rows. -/
def recallGraphQuery (g : GraphState) (query : String)
    (type? : Option String) (limit : Nat) : List GNode :=
  (List.insertionSort impRel (memoryMatches g query type?)).take limit

/-- One element of the combined recall result: a graph record carries
the memory properties, a note record carries filename, joined snippet
text and path. The source tag of the source code is the constructor. -/
inductive RecallEntry where
  | neo4j (id content type importance createdAt : PropVal)
  | obsidian (id content path : String)
deriving Repr, DecidableEq

def RecallEntry.source : RecallEntry → String
  | RecallEntry.neo4j _ _ _ _ _ => "neo4j"
  | RecallEntry.obsidian _ _ _ => "obsidian"

def mkNeoEntry (n : GNode) : RecallEntry :=
  RecallEntry.neo4j (lookupProp n.props "id") (lookupProp n.props "content")
    (lookupProp n.props "type") (lookupProp n.props "importance")
    (lookupProp n.props "createdAt")

/-- Joined snippet text of a note hit; a hit without snippets yields
the empty string through the optional-chaining fallback. -/
def joinSnippets (h : SearchHit) : String :=
  match h.snippets with
  | some sn => String.intercalate "\n" (sn.map Snippet.text)
  | none => ""

def mkObsEntry (h : SearchHit) : RecallEntry :=
  RecallEntry.obsidian h.filename (joinSnippets h) h.path

/-- The obsidian-side type filter of recall_memory: with a type, keep
hits whose path contains the memory/type segment; the tags disjunct of
the source never fires because search hits carry no tags field. -/
def obsTypeFilter (type? : Option String) (h : SearchHit) : Bool :=
  match type? with
  | none => true
  | some t => strContains h.path ("memory/" ++ t)

/-- The graph side of recall: raises when the graph service is down. -/
def graphRecallExc (o : OrchState) (query : String) (type? : Option String)
    (limit : Nat) : Except String (List GNode) :=
  if o.graphFail then Except.error "Neo4j session unavailable"
  else Except.ok (recallGraphQuery o.graph query type? limit)

/-- The note side of recall: search_notes with case-insensitive match
and content snippets; raises when the note store is down. -/
def noteSearchExc (o : OrchState) (query : String) (limit : Nat) :
    Except String (List SearchHit) :=
  if o.noteFail then Except.error "vault unavailable"
  else Except.ok (search_notes o.tree query false true limit).results

structure RecallResult where
  success : Bool
  query : String
  memories : List RecallEntry
  countNeo4j : Nat
  countObsidian : Nat
  countTotal : Nat
deriving Repr, DecidableEq

/-- Model of the recall_memory handler: each backend search runs under
its own catch that leaves that side empty on failure, the two tagged
lists are concatenated graph first, and the combined list is sliced to
the limit while the counts report the pre-slice lengths. -/
def recall_memory (o : OrchState) (query : String) (type? : Option String)
    (limit : Nat) : RecallResult :=
  let neoPart : List RecallEntry :=
    match graphRecallExc o query type? limit with
    | Except.ok nodes => nodes.map mkNeoEntry
    | Except.error _ => []
  let obsPart : List RecallEntry :=
    match noteSearchExc o query limit with
    | Except.ok hits => (hits.filter (obsTypeFilter type?)).map mkObsEntry
    | Except.error _ => []
  ⟨true, query, (neoPart ++ obsPart).take limit,
    neoPart.length, obsPart.length, (neoPart ++ obsPart).length⟩

/-- First character uppercased, the title prefix computation of
store_memory. -/
def capitalizeFirst (s : String) : String :=
  match s.data with
  | [] => s
  | c :: rest => String.mk (upChar c :: rest)

/-- The date part of an ISO timestamp, the split on T in store_memory. -/
def dateOf (ts : String) : String :=
  String.mk (ts.data.takeWhile (fun c => c ≠ 'T'))

/-- Model of the create_note handler: build front matter with a
creation timestamp, tags and optional title, apply one of the four
content templates, and delegate to write_note. The locale-formatted
dates of the journal and meeting headings are represented by the
timestamp. -/
def create_note (files : Files) (filename : String) (title : Option String)
    (content : String) (tags : List String) (template : String)
    (now : String) : Files × WriteNoteResult :=
  let fm0 : FM := [("created", FMValue.str now), ("tags", FMValue.arr tags)]
  let fm1 : FM :=
    match title with
    | some t => upsertFM "title" (FMValue.str t) fm0
    | none => fm0
  match template with
  | "journal" =>
      write_note files filename
        ("# " ++ (match title with | some t => t | none => now)
          ++ "\n\n" ++ content)
        (some (upsertFM "type" (FMValue.str "journal") fm1))
  | "meeting" =>
      write_note files filename
        ("# " ++ (match title with | some t => t | none => "Meeting")
          ++ "\n\n**Date:** " ++ now ++ "\n\n" ++ content)
        (some (upsertFM "type" (FMValue.str "meeting") fm1))
  | "log" =>
      write_note files filename
        ("# " ++ (match title with | some t => t | none => "Log Entry")
          ++ "\n\n**Timestamp:** " ++ now ++ "\n\n" ++ content)
        (some (upsertFM "type" (FMValue.str "log") fm1))
  | _ =>
      write_note files filename
        (match title with
         | some t => "# " ++ t ++ "\n\n" ++ content
         | none => content)
        (some fm1)

/-- A named entity mentioned by a memory, with an optional label that
defaults to Entity. -/
structure MentionRef where
  name : String
  label : Option String
deriving Repr, DecidableEq

structure StoreMemoryResult where
  success : Bool
  memoryId : String
  type : String
  importance : ℚ
  timestamp : String
  stored_neo4j : Bool
  stored_obsidian : Bool
deriving Repr, DecidableEq

/-- Model of the store_memory handler: one catch around the whole graph
phase (Memory entity plus best-effort tag and mention links, each under
its own inner catch), one catch around the note mirror, and a returned
result that is built after both phases and reports both stores as
written unconditionally. The memory id, generated in the source from
the clock and a random suffix, enters as a parameter. -/
def store_memory (o : OrchState) (content type : String) (tags : List String)
    (entities : List MentionRef) (importance : ℚ) (source : String)
    (now : String) (memoryId : String) : OrchState × StoreMemoryResult :=
  let memoryName := "Memory_" ++ memoryId
  let o1 :=
    match create_entity o.graphFail o.graph "Memory" memoryName
        [("id", PropVal.str memoryId), ("content", PropVal.str content),
         ("type", PropVal.str type), ("importance", PropVal.num importance),
         ("source", PropVal.str source), ("createdAt", PropVal.str now)] now with
    | Except.error _ => o
    | Except.ok (g1, _) =>
        let g2 := tags.foldl (fun g tag =>
          match create_entity o.graphFail g "Tag" tag [] now with
          | Except.error _ => g
          | Except.ok (g', _) =>
              match create_relationship o.graphFail g' "Memory" memoryName
                  "Tag" tag "TAGGED_WITH" [] now with
              | Except.error _ => g'
              | Except.ok (g'', _) => g'') g1
        let g3 := entities.foldl (fun g ent =>
          match create_relationship o.graphFail g "Memory" memoryName
              (match ent.label with | some l => l | none => "Entity") ent.name
              "MENTIONS" [] now with
          | Except.error _ => g
          | Except.ok (g', _) => g') g2
        { o with graph := g3 }
  let o2 :=
    if o1.noteFail then o1
    else
      let title := capitalizeFirst type ++ ": "
        ++ String.mk (content.data.take 50) ++ "..."
      let filename := "memory/" ++ dateOf now ++ "/" ++ memoryId ++ ".md"
      { o1 with files := (create_note o1.files filename (some title) content
          ("memory" :: type :: tags) "log" now).1 }
  (o2, ⟨true, memoryId, type, importance, now, true, true⟩)

/-- The notes argument as a stored property value: a missing optional
note is stored as null. -/
def noteProp : Option String → PropVal
  | some s => PropVal.str s
  | none => PropVal.null

/-- Model of the create_knowledge_link handler: link two Concept
entities by name; when the link fails, create both concept entities and
retry the link exactly once, raising if the retry fails too. The
boolean result carries the created flag of the fallback path. -/
def create_knowledge_link (o : OrchState) (from_name to_name relationship : String)
    (strength : ℚ) (notes : Option String) (now : String) :
    OrchState × Except String Bool :=
  let noteVal := noteProp notes
  match create_relationship o.graphFail o.graph "Concept" from_name
      "Concept" to_name (toUpperStr relationship)
      [("strength", PropVal.num strength), ("notes", noteVal),
       ("createdAt", PropVal.str now)] now with
  | Except.ok (g', _) => ({ o with graph := g' }, Except.ok false)
  | Except.error _ =>
      match create_entity o.graphFail o.graph "Concept" from_name [] now with
      | Except.error e => (o, Except.error ("Failed to create link: " ++ e))
      | Except.ok (g1, _) =>
          match create_entity o.graphFail g1 "Concept" to_name [] now with
          | Except.error e =>
              ({ o with graph := g1 }, Except.error ("Failed to create link: " ++ e))
          | Except.ok (g2, _) =>
              match create_relationship o.graphFail g2 "Concept" from_name
                  "Concept" to_name (toUpperStr relationship)
                  [("strength", PropVal.num strength), ("notes", noteVal)] now with
              | Except.error e =>
                  ({ o with graph := g2 },
                   Except.error ("Failed to create link: " ++ e))
              | Except.ok (g3, _) => ({ o with graph := g3 }, Except.ok true)

/-- The directed relationships from node i to node j, used to state
how many parallel links exist between two endpoints. -/
def relsBetween (g : GraphState) (i j : Nat) : List GRel :=
  g.rels.filter (fun r => r.fromId = i ∧ r.toId = j)

/-! ## Dispatch server

The tools/call request handler of the MCP server: look the tool up in
the merged registry, throw the unknown-tool error when absent, and
otherwise run the handler under a catch that turns a tool failure into
a content envelope flagged as an error. Handlers are opaque functions
from an argument payload to a result payload, JSON serialization
abstracted; the returned list records which handlers were invoked. -/

abbrev ToolHandler := String → Except String String

def callToolHandler (reg : List (String × ToolHandler)) (name args : String) :
    Except String (String × Bool) × List String :=
  match reg.find? (fun kv => kv.1 = name) with
  | none => (Except.error ("Unknown tool: " ++ name), [])
  | some kv =>
      match kv.2 args with
      | Except.ok r => (Except.ok (r, false), [name])
      | Except.error e => (Except.ok (e, true), [name])

/-- A response on the protocol connection: either a tool result
envelope with its error flag, or a JSON-RPC error response. -/
inductive RpcOutcome where
  | toolResult (text : String) (isError : Bool)
  | rpcError (message : String)
deriving Repr, DecidableEq

/-- Modelled from the spec: the MCP SDK request layer, which is not
part of this repository, returns the handler value as a result
envelope and converts an exception thrown by the request handler into
a structured JSON-RPC error response on the same connection; the
connection stays alive either way. -/
def serverCallTool (reg : List (String × ToolHandler)) (name args : String) :
    RpcOutcome × List String :=
  match callToolHandler reg name args with
  | (Except.ok r, log) => (RpcOutcome.toolResult r.1 r.2, log)
  | (Except.error m, log) => (RpcOutcome.rpcError m, log)

end MCPSM

namespace MCPSM

/-! ## Theorems -/

theorem findSplit_of_isPrefixOf (sep l : List Char) (hne : sep ≠ [])
    (h : sep.isPrefixOf l = true) :
    findSplit sep l = some ([], l.drop sep.length) := by
  cases l with
  | nil =>
      rw [List.isPrefixOf_iff_prefix] at h
      exact absurd (List.prefix_nil.mp h) hne
  | cons c rest => simp [findSplit, h]

theorem findSplit_append (sep pre post : List Char) (hne : sep ≠ [])
    (h : ∀ i, i < pre.length → ¬ sep.isPrefixOf ((pre ++ sep).drop i) = true) :
    findSplit sep (pre ++ sep ++ post) = some (pre, post) := by
  induction pre with
  | nil =>
      have hpre : sep.isPrefixOf (sep ++ post) = true := by
        rw [List.isPrefixOf_iff_prefix]
        exact List.prefix_append sep post
      rw [List.nil_append, findSplit_of_isPrefixOf sep (sep ++ post) hne hpre,
        List.drop_left]
  | cons c pre' ih =>
      have hnp : ¬ sep <+: (c :: (pre' ++ (sep ++ post))) := by
        intro hb
        apply h 0 (by simp)
        simp only [List.drop_zero]
        rw [List.isPrefixOf_iff_prefix]
        refine List.prefix_of_prefix_length_le hb ?_ (by simp; omega)
        · have hap := List.prefix_append (c :: (pre' ++ sep)) post
          rw [List.cons_append, List.append_assoc] at hap
          exact hap
      have hco : sep.isPrefixOf (c :: (pre' ++ (sep ++ post))) = false := by
        rw [Bool.eq_false_iff]
        intro hb
        exact hnp (List.isPrefixOf_iff_prefix.mp hb)
      have hshift : ∀ i, i < pre'.length →
          ¬ sep.isPrefixOf ((pre' ++ sep).drop i) = true := by
        intro i hi
        have := h (i + 1) (by simp only [List.length_cons]; omega)
        exact this
      have hrec := ih hshift
      rw [List.append_assoc] at hrec
      have hsh : (c :: pre') ++ sep ++ post = c :: (pre' ++ (sep ++ post)) := by
        simp
      rw [hsh]
      simp only [findSplit, hco]
      simp [hrec]

theorem lookupFile_setFile (fs : Files) (p c : String) :
    lookupFile (setFile fs p c) p = some c := by
  simp [lookupFile, setFile, List.find?]

/-- C7: writing a note with front-matter tags a, b and created
2024-01-01 and reading it back with front-matter parsing enabled
reproduces the same tag array and the same created string, for every
body content and every prior vault state. -/
theorem frontmatter_roundtrip (files : Files) (filename content : String) :
    (read_note (write_note files filename content
        (some [("tags", FMValue.arr ["a", "b"]),
               ("created", FMValue.str "2024-01-01")])).1 filename true).map
      (fun r => r.frontmatter)
    = Except.ok (some [("tags", FMValue.arr ["a", "b"]),
                       ("created", FMValue.str "2024-01-01")]) := by
  have hparse : (parseFrontmatterCore
      (("---\ntags: [\"a\", \"b\"]\ncreated: \"2024-01-01\"\n---\n\n" : String).data
        ++ content.data)).1
      = some [("tags", FMValue.arr ["a", "b"]),
              ("created", FMValue.str "2024-01-01")] := by
    have hsplit := findSplit_append ("\n---\n".data)
        ("tags: [\"a\", \"b\"]\ncreated: \"2024-01-01\"".data)
        ("\n".data ++ content.data) (by decide) (by decide)
    have hshape :
        ("---\ntags: [\"a\", \"b\"]\ncreated: \"2024-01-01\"\n---\n\n" : String).data
          ++ content.data
        = "---\n".data ++ ("tags: [\"a\", \"b\"]\ncreated: \"2024-01-01\"".data
            ++ ("\n---\n".data ++ ("\n".data ++ content.data))) := rfl
    rw [List.append_assoc] at hsplit
    unfold parseFrontmatterCore
    rw [hshape]
    rw [if_pos (by rw [List.isPrefixOf_iff_prefix]; exact List.prefix_append _ _)]
    rw [show ("---\n".data ++ ("tags: [\"a\", \"b\"]\ncreated: \"2024-01-01\"".data
          ++ ("\n---\n".data ++ ("\n".data ++ content.data)))).drop 4
        = "tags: [\"a\", \"b\"]\ncreated: \"2024-01-01\"".data
            ++ ("\n---\n".data ++ ("\n".data ++ content.data))
      by
        have h4 := List.drop_left ("---\n".data)
          ("tags: [\"a\", \"b\"]\ncreated: \"2024-01-01\"".data
            ++ ("\n---\n".data ++ ("\n".data ++ content.data)))
        exact h4]
    rw [hsplit]
    exact congrArg some
      (by decide :
        parseFMBlock ("tags: [\"a\", \"b\"]\ncreated: \"2024-01-01\"".data)
          = [("tags", FMValue.arr ["a", "b"]),
             ("created", FMValue.str "2024-01-01")])
  have hbf : buildFrontmatter [("tags", FMValue.arr ["a", "b"]),
      ("created", FMValue.str "2024-01-01")] ++ "\n"
      = "---\ntags: [\"a\", \"b\"]\ncreated: \"2024-01-01\"\n---\n\n" := by decide
  simp only [write_note, read_note, lookupFile_setFile]
  rw [hbf]
  simp [parseFrontmatter, Except.map]
  exact hparse

/-- C8: delete_note on a path whose file does not exist returns a
non-error result with success true and deleted false, leaves the store
unchanged, and a second call on the same path returns the same
non-error not-deleted result. -/
theorem delete_note_absent_idempotent (files : Files) (filename : String)
    (h : lookupFile files (getFilePath filename) = none) :
    (delete_note files filename).2 = ⟨true, filename, false⟩ ∧
    (delete_note files filename).1 = files ∧
    (delete_note (delete_note files filename).1 filename).2
      = ⟨true, filename, false⟩ := by
  refine ⟨?_, ?_, ?_⟩ <;> simp [delete_note, h]

/-- C5: when both endpoints exist and are uniquely matched by their
label plus name, create_relationship creates exactly one directed
relationship whose stored type is the uppercased input type; when
either match set is empty, it fails with the endpoints-not-found error
and the state is unchanged (no relationship is created). -/
theorem create_relationship_unique_endpoints (g : GraphState)
    (fl fn tl tn rt : String) (props : PropMap) (now : String) :
    (∀ f t : GNode, matchNodes g fl fn = [f] → matchNodes g tl tn = [t] →
      create_relationship false g fl fn tl tn rt props now
        = Except.ok (⟨g.nextId + 1, g.nodes,
            g.rels ++ [⟨g.nextId, toUpperStr rt, f.nid, t.nid,
              setProps props [("createdAt", PropVal.str now)]⟩]⟩,
          ⟨true, g.nextId, fn, tn, rt⟩))
    ∧ ((matchNodes g fl fn = [] ∨ matchNodes g tl tn = []) →
      create_relationship false g fl fn tl tn rt props now
        = Except.error "One or both entities not found") := by
  constructor
  · intro f t hf ht
    simp [create_relationship, hf, ht, List.enum]
  · intro hor
    have hnil : ((matchNodes g fl fn).flatMap fun f =>
        (matchNodes g tl tn).map fun t => (f, t)) = [] := by
      rcases hor with he | he <;> simp [he]
    simp [create_relationship, hnil]

/-- Witness for C5: in a two-node graph the call succeeds and appends
exactly one uppercased relationship; in the empty graph it fails with
the endpoints-not-found error. -/
theorem create_relationship_unique_endpoints_inst :
    (matchNodes ⟨2, [⟨0, "Person", "A", []⟩, ⟨1, "Person", "B", []⟩], []⟩
        "Person" "A" = [⟨0, "Person", "A", []⟩] ∧
     matchNodes ⟨2, [⟨0, "Person", "A", []⟩, ⟨1, "Person", "B", []⟩], []⟩
        "Person" "B" = [⟨1, "Person", "B", []⟩] ∧
     create_relationship false
        ⟨2, [⟨0, "Person", "A", []⟩, ⟨1, "Person", "B", []⟩], []⟩
        "Person" "A" "Person" "B" "knows" [] "T0"
       = Except.ok (⟨3, [⟨0, "Person", "A", []⟩, ⟨1, "Person", "B", []⟩],
           [⟨2, "KNOWS", 0, 1, [("createdAt", PropVal.str "T0")]⟩]⟩,
         ⟨true, 2, "A", "B", "knows"⟩))
    ∧ (matchNodes ⟨0, [], []⟩ "Person" "A" = [] ∧
       create_relationship false ⟨0, [], []⟩ "Person" "A" "Person" "B" "knows" [] "T0"
         = Except.error "One or both entities not found") :=
  ⟨⟨by decide, by decide,
    ((create_relationship_unique_endpoints
        ⟨2, [⟨0, "Person", "A", []⟩, ⟨1, "Person", "B", []⟩], []⟩
        "Person" "A" "Person" "B" "knows" [] "T0").1
      ⟨0, "Person", "A", []⟩ ⟨1, "Person", "B", []⟩ (by decide) (by decide)).trans
      (by rfl)⟩,
   ⟨by decide,
    (create_relationship_unique_endpoints ⟨0, [], []⟩
        "Person" "A" "Person" "B" "knows" [] "T0").2 (Or.inl (by decide))⟩⟩

/-- C9: delete_entity on an id matching no node returns a success
result with deleted false instead of raising, while update_entity on
the same absent id fails with the entity-not-found error; and whenever
delete_entity returns a result, its deleted flag is true exactly when
the store deleted at least one node. -/
theorem delete_entity_absent_success (g : GraphState) (id : Nat)
    (detach : Bool) (props : PropMap) (now : String) :
    (g.nodes.find? (fun n => n.nid = id) = none →
       delete_entity false g id detach = Except.ok (g, ⟨true, false⟩) ∧
       update_entity false g id props now
         = Except.error ("Entity not found: " ++ toString id)) ∧
    (∀ g' res, delete_entity false g id detach = Except.ok (g', res) →
       (res.deleted = true ↔ g'.nodes.length < g.nodes.length)) := by
  constructor
  · intro h
    constructor
    · simp [delete_entity, h]
    · have : (g.nodes.find? (fun n => n.nid = id)).isSome = false := by
        simp [h]
      simp [update_entity, this]
  · intro g' res hdel
    unfold delete_entity at hdel
    simp only [if_neg (by simp : ¬ false = true)] at hdel
    rcases hfind : g.nodes.find? (fun n => n.nid = id) with _ | n
    · rw [hfind] at hdel
      simp at hdel
      obtain ⟨hg', hres⟩ := hdel
      subst hg'
      simp [← hres]
    · rw [hfind] at hdel
      have hmem : n ∈ g.nodes := List.mem_of_find?_eq_some hfind
      have hnid : n.nid = id := by
        have := List.find?_some hfind
        simpa using this
      by_cases hdet : detach
      · simp [hdet] at hdel
        obtain ⟨hg', hres⟩ := hdel
        subst hg'
        simp [← hres]
        exact List.length_filter_lt_length_iff_exists.mpr ⟨n, hmem, by simp [hnid]⟩
      · by_cases hinc : (incidentRels g id).isEmpty
        · simp [hdet, hinc] at hdel
          obtain ⟨hg', hres⟩ := hdel
          subst hg'
          simp [← hres]
          exact List.length_filter_lt_length_iff_exists.mpr ⟨n, hmem, by simp [hnid]⟩
        · simp [hdet, hinc] at hdel

/-- Witness for C9 at the empty graph, where id 0 matches no node. -/
theorem delete_entity_absent_success_inst :
    ((⟨0, [], []⟩ : GraphState).nodes.find? (fun n => n.nid = 0) = none ∧
     (delete_entity false ⟨0, [], []⟩ 0 false = Except.ok (⟨0, [], []⟩, ⟨true, false⟩) ∧
      update_entity false ⟨0, [], []⟩ 0 [] "T0"
        = Except.error ("Entity not found: " ++ toString 0))) ∧
    (delete_entity false ⟨0, [], []⟩ 0 false
        = Except.ok (⟨0, [], []⟩, ⟨true, false⟩) →
      ((false : Bool) = true ↔ (0 : Nat) < 0)) :=
  ⟨⟨by decide,
    (delete_entity_absent_success ⟨0, [], []⟩ 0 false [] "T0").1 (by decide)⟩,
   fun h => (delete_entity_absent_success ⟨0, [], []⟩ 0 false [] "T0").2
     ⟨0, [], []⟩ ⟨true, false⟩ h⟩

/-- C1: a tools/call request naming an unregistered tool invokes no
handler, and the unknown-tool error reaches the caller as a structured
error response on the live protocol connection rather than as a
transport-level failure. -/
theorem dispatch_unknown_tool (reg : List (String × ToolHandler))
    (name args : String)
    (h : reg.find? (fun kv => kv.1 = name) = none) :
    serverCallTool reg name args
      = (RpcOutcome.rpcError ("Unknown tool: " ++ name), []) := by
  simp [serverCallTool, callToolHandler, h]

/-- Witness for C1 on a one-tool registry and an unregistered name. -/
theorem dispatch_unknown_tool_inst :
    ([(("read_note" : String), (fun _ => Except.ok "ok" : ToolHandler))].find?
        (fun kv => kv.1 = "nope") = none) ∧
    serverCallTool [("read_note", fun _ => Except.ok "ok")] "nope" "args"
      = (RpcOutcome.rpcError ("Unknown tool: " ++ "nope"), []) :=
  ⟨rfl, dispatch_unknown_tool [("read_note", fun _ => Except.ok "ok")]
    "nope" "args" rfl⟩

/-- C2: the result record of store_memory is the same for every prior
state, in particular for every combination of graph-write and
note-write outcomes: success true and both stored flags true,
independent of what either backend actually did. -/
theorem store_memory_reports_both_stored (o : OrchState)
    (content type : String) (tags : List String) (entities : List MentionRef)
    (importance : ℚ) (source now memoryId : String) :
    (store_memory o content type tags entities importance source now memoryId).2
      = ⟨true, memoryId, type, importance, now, true, true⟩ := rfl

/-- C3 (code bug): the claimed behavior never happens on the code.
The graph write of store_memory always fails, because create_entity
sends invalid Cypher, and the outer catch swallows the failure; with
the note store also unavailable, a following recall_memory returns
normally (no exception, success true, both failures swallowed) but
with zero memories instead of the claimed graph-stored one. -/
theorem recall_after_store_empty_on_broken_create :
    (recall_memory
        (store_memory ⟨false, true, ⟨0, [], []⟩, [], Vault.nil⟩
          "test fact" "fact" [] [] 1 "user" "2024-01-01T00:00:00Z" "m1").1
        "test" none 10)
      = ⟨true, "test", [], 0, 0, 0⟩ := rfl


theorem impGE_total (a b : Option ℚ) : impGE a b = true ∨ impGE b a = true := by
  rcases a with _ | x <;> rcases b with _ | y <;> simp [impGE]
  exact le_total y x

theorem impGE_trans (a b c : Option ℚ) (h1 : impGE a b = true)
    (h2 : impGE b c = true) : impGE a c = true := by
  rcases a with _ | x <;> rcases b with _ | y <;> rcases c with _ | z <;>
    simp_all [impGE]
  exact le_trans h2 h1

instance : IsTotal GNode impRel := ⟨fun a b => impGE_total (impKey a) (impKey b)⟩

instance : IsTrans GNode impRel :=
  ⟨fun _ _ _ hab hbc => impGE_trans _ _ _ hab hbc⟩

/-- The graph part of a recall result is ordered by importance
descending: the Cypher ORDER BY sorts and LIMIT keeps a prefix. -/
theorem recallGraphQuery_sorted (g : GraphState) (query : String)
    (type? : Option String) (limit : Nat) :
    (recallGraphQuery g query type? limit).Pairwise impRel :=
  List.Pairwise.sublist (List.take_sublist _ _)
    (List.sorted_insertionSort impRel _)

/-- C4: with both backends up, the memories array of recall_memory is
the graph results (ordered by importance descending, tagged neo4j)
concatenated with the filtered note results (tagged obsidian),
truncated to the first limit elements; the total count is the sum of
both sides before truncation, so nothing is deduplicated, and a state
holding the same logical memory in both stores yields it twice. -/
theorem recall_concat_no_dedup :
    (∀ (o : OrchState) (query : String) (type? : Option String) (limit : Nat),
      o.graphFail = false → o.noteFail = false →
      (recall_memory o query type? limit).memories
        = (((recallGraphQuery o.graph query type? limit).map mkNeoEntry)
            ++ (((search_notes o.tree query false true limit).results.filter
                  (obsTypeFilter type?)).map mkObsEntry)).take limit
      ∧ (recall_memory o query type? limit).countTotal
          = (recallGraphQuery o.graph query type? limit).length
            + ((search_notes o.tree query false true limit).results.filter
                (obsTypeFilter type?)).length
      ∧ (recallGraphQuery o.graph query type? limit).Pairwise impRel) ∧
    (recall_memory
        ⟨false, false,
         ⟨1, [⟨0, "Memory", "Memory_m1",
            [("id", PropVal.str "m1"), ("content", PropVal.str "test fact"),
             ("type", PropVal.str "fact"), ("importance", PropVal.num 1),
             ("createdAt", PropVal.str "T0")]⟩], []⟩,
         [], Vault.dir "memory" (Vault.dir "2024-01-01"
            (Vault.file "m1.md" "test fact" Vault.nil) Vault.nil) Vault.nil⟩
        "test" none 10).memories
      = [RecallEntry.neo4j (PropVal.str "m1") (PropVal.str "test fact")
          (PropVal.str "fact") (PropVal.num 1) (PropVal.str "T0"),
         RecallEntry.obsidian "m1.md" "test fact" "memory/2024-01-01/m1.md"] := by
  constructor
  · intro o query type? limit hg hn
    refine ⟨?_, ?_, recallGraphQuery_sorted o.graph query type? limit⟩
    · simp [recall_memory, graphRecallExc, noteSearchExc, hg, hn]
    · simp [recall_memory, graphRecallExc, noteSearchExc, hg, hn]
  · decide

/-- Witness for C4 at the empty dual store. -/
theorem recall_concat_no_dedup_inst :
    ((⟨false, false, ⟨0, [], []⟩, [], Vault.nil⟩ : OrchState).graphFail = false ∧
     (⟨false, false, ⟨0, [], []⟩, [], Vault.nil⟩ : OrchState).noteFail = false) ∧
    ((recall_memory ⟨false, false, ⟨0, [], []⟩, [], Vault.nil⟩ "q" none 10).memories
      = (((recallGraphQuery ⟨0, [], []⟩ "q" none 10).map mkNeoEntry)
          ++ (((search_notes Vault.nil "q" false true 10).results.filter
                (obsTypeFilter none)).map mkObsEntry)).take 10
     ∧ (recall_memory ⟨false, false, ⟨0, [], []⟩, [], Vault.nil⟩ "q" none 10).countTotal
          = (recallGraphQuery ⟨0, [], []⟩ "q" none 10).length
            + ((search_notes Vault.nil "q" false true 10).results.filter
                (obsTypeFilter none)).length
     ∧ (recallGraphQuery ⟨0, [], []⟩ "q" none 10).Pairwise impRel) :=
  ⟨⟨rfl, rfl⟩,
   recall_concat_no_dedup.1 ⟨false, false, ⟨0, [], []⟩, [], Vault.nil⟩
     "q" none 10 rfl rfl⟩

/-- C6 (code bug): the claimed upsert-then-duplicate never happens on
the code. With neither Concept present the first link attempt fails on
empty endpoints, the fallback dies at once because create_entity sends
invalid Cypher, and the call raises the failed-to-create-link error
with the state unchanged: no concept created, no relationship, and a
second identical call fails the same way. -/
theorem create_knowledge_link_fails_on_broken_create :
    (create_knowledge_link ⟨false, false, ⟨0, [], []⟩, [], Vault.nil⟩
        "A" "B" "relates_to" 1 none "T1")
      = (⟨false, false, ⟨0, [], []⟩, [], Vault.nil⟩,
         Except.error ("Failed to create link: " ++ createEntitySyntaxError))
    ∧ (create_knowledge_link
        (create_knowledge_link ⟨false, false, ⟨0, [], []⟩, [], Vault.nil⟩
          "A" "B" "relates_to" 1 none "T1").1
        "A" "B" "relates_to" 1 none "T2")
      = (⟨false, false, ⟨0, [], []⟩, [], Vault.nil⟩,
         Except.error ("Failed to create link: " ++ createEntitySyntaxError)) :=
  ⟨rfl, rfl⟩


/-- C10: the results array of search_notes never exceeds the limit,
while the count field reports the number of matches accumulated before
the final truncation; since the limit break runs per directory level
during the walk, count can exceed both the limit and the length of the
returned results array, as a concrete vault shows. -/
theorem search_notes_count_past_limit :
    (∀ vault query cs ic limit,
      (search_notes vault query cs ic limit).results.length ≤ limit ∧
      (search_notes vault query cs ic limit).count
        = (searchWalk query cs ic limit vault "" []).length) ∧
    (∃ vault query limit,
      limit < (search_notes vault query false false limit).count ∧
      (search_notes vault query false false limit).results.length
        < (search_notes vault query false false limit).count) := by
  constructor
  · intro vault query cs ic limit
    refine ⟨?_, rfl⟩
    simp only [search_notes, List.length_take]
    omega
  · exact ⟨Vault.file "a.md" "q" (Vault.dir "d"
      (Vault.file "b.md" "q" (Vault.file "c.md" "q" Vault.nil)) Vault.nil),
      "q", 2, by decide, by decide⟩

/-- Witness for C8 at a concrete absent path in an empty vault. -/
theorem delete_note_absent_idempotent_inst :
    lookupFile [] (getFilePath "ghost") = none ∧
    ((delete_note [] "ghost").2 = ⟨true, "ghost", false⟩ ∧
     (delete_note [] "ghost").1 = [] ∧
     (delete_note (delete_note [] "ghost").1 "ghost").2
       = ⟨true, "ghost", false⟩) :=
  ⟨by decide, delete_note_absent_idempotent [] "ghost" (by decide)⟩

end MCPSM
